import Mathlib

/-!
Verification of vod-squirrel's core behaviours against its specification.

The downloader (`download` in `src/main.rs`) is embedded as a small-step
transition system: each spawned segment task is modelled by a `DTask`
whose phase follows the task body
(`select{cancelled, permit.acquire}` → request+file-create → byte loop →
done), the tokio `Semaphore` by an `available` permit counter, and the
`segment_file_names` vector by the `names` field, fixed at spawn time.
A scheduler is a list of actions; `run` folds the step function over it.

The eventsub session (`src/eventsub.rs`) is embedded by pure functions
over a JSON value model mirroring `serde_json::Value` indexing, and the
session/registration tasks by trace functions.

`truncate_string` (`src/util.rs`) is embedded over byte lists with
Rust's `str::is_char_boundary` semantics.
-/

set_option maxHeartbeats 1000000

namespace VodSquirrel

/-! ### Download coordinator model (`download`, src/main.rs lines 358-411) -/

/-- Phase of one spawned segment-download task, following the async block in
`download`: `pending` before the `select!`, `exited` if the `ct.cancelled()`
branch won (the task `return`s), `holding` once `permit.acquire()` succeeded,
`streaming remaining written` during the `res_stream` byte loop, `done` after
the loop (permit dropped at scope exit). -/
inductive Phase
  | pending
  | exited
  | holding
  | streaming (remaining : Nat) (written : Nat)
  | done
deriving DecidableEq, Repr

/-- One segment task: its playlist `uri`, the number of body chunks the remote
stream will yield, its phase, and whether the HTTP request was sent and the
local file created (both happen together when the task leaves `holding`). -/
structure DTask where
  uri : String
  chunks : Nat
  phase : Phase
  requested : Bool
  fileCreated : Bool
deriving DecidableEq, Repr

/-- Global state of one `download` job: the cancellation token's flag, the
semaphore's available permits, the spawned tasks, and `segment_file_names`
(pushed in enumeration order before spawning, never mutated afterwards). -/
structure DlState where
  cancelled : Bool
  available : Nat
  tasks : List DTask
  names : List String
deriving DecidableEq, Repr

/-- Scheduler actions: `cancel` models the ctrl-c watcher firing the
`CancellationToken`; the rest are steps of task `i`'s body. -/
inductive Act
  | cancel
  | observeCancel (i : Nat)
  | acquire (i : Nat)
  | startStream (i : Nat)
  | chunk (i : Nat)
  | finish (i : Nat)
deriving DecidableEq, Repr

/-- One scheduler step. Guards mirror the code: `observeCancel` needs the
token cancelled and the task still before its `select!`; `acquire` needs a
free permit (and is possible even when cancelled — `tokio::select!` picks
among ready branches); `chunk` and `finish` have no cancellation guard
because the byte loop in `download` never checks the token. -/
def step (s : DlState) : Act → Option DlState
  | .cancel => some { s with cancelled := true }
  | .observeCancel i =>
    match s.tasks[i]? with
    | some t =>
      if s.cancelled = true ∧ t.phase = .pending then
        some { s with tasks := s.tasks.set i { t with phase := .exited } }
      else none
    | none => none
  | .acquire i =>
    match s.tasks[i]? with
    | some t =>
      if t.phase = .pending ∧ 0 < s.available then
        some { s with available := s.available - 1,
                      tasks := s.tasks.set i { t with phase := .holding } }
      else none
    | none => none
  | .startStream i =>
    match s.tasks[i]? with
    | some t =>
      if t.phase = .holding then
        let t' : DTask :=
          { t with phase := .streaming t.chunks 0, requested := true, fileCreated := true }
        some { s with tasks := s.tasks.set i t' }
      else none
    | none => none
  | .chunk i =>
    match s.tasks[i]? with
    | some t =>
      match t.phase with
      | .streaming (r + 1) w =>
        some { s with tasks := s.tasks.set i { t with phase := .streaming r (w + 1) } }
      | _ => none
    | none => none
  | .finish i =>
    match s.tasks[i]? with
    | some t =>
      match t.phase with
      | .streaming 0 _ =>
        some { s with available := s.available + 1,
                      tasks := s.tasks.set i { t with phase := .done } }
      | _ => none
    | none => none

/-- Run a scheduler: fold `step` over the action list, failing if any action
is not enabled. -/
def run (s : DlState) : List Act → Option DlState
  | [] => some s
  | a :: rest =>
    match step s a with
    | some s' => run s' rest
    | none => none

/-- Initial state of a `download` job: for each playlist segment (uri and
chunk count, in playlist enumeration order) one pending task; the permit pool
holds `p` permits (`Semaphore::new(parallelism)`); `segment_file_names` is
the uris in enumeration order, as pushed by the spawn loop. -/
def initState (segs : List (String × Nat)) (p : Nat) : DlState :=
  { cancelled := false
    available := p
    tasks := segs.map fun sc => ⟨sc.1, sc.2, .pending, false, false⟩
    names := segs.map Prod.fst }

/-- A task is done iff its phase is terminal for a successful run. -/
def Phase.terminal : Phase → Bool
  | .done => true
  | .exited => true
  | _ => false

/-- All tasks have reached a terminal state (what `join_all` waits for). -/
def drained (s : DlState) : Bool :=
  s.tasks.all fun t => t.phase.terminal

/-- The five possible transitions of one task's record, together with their
effect on the permit counter (`avail` before, `avail'` after). -/
def TaskStep (avail avail' : Nat) (t t' : DTask) : Prop :=
  (t' = { t with phase := .exited } ∧ t.phase = .pending ∧ avail' = avail) ∨
  (t' = { t with phase := .holding } ∧ t.phase = .pending ∧ 0 < avail ∧ avail' = avail - 1) ∨
  (t' = { t with phase := .streaming t.chunks 0, requested := true, fileCreated := true } ∧
    t.phase = .holding ∧ avail' = avail) ∨
  (∃ r w, t.phase = .streaming (r + 1) w ∧
    t' = { t with phase := .streaming r (w + 1) } ∧ avail' = avail) ∨
  (∃ w, t.phase = .streaming 0 w ∧ t' = { t with phase := .done } ∧ avail' = avail + 1)

/-- A task currently holds a semaphore permit: it acquired one (`holding`) or
is streaming its segment; `exited` and `done` tasks have released theirs. -/
def holdsPermit (t : DTask) : Bool :=
  match t.phase with
  | .holding => true
  | .streaming _ _ => true
  | _ => false

/-- Number of transfers concurrently in flight (tasks holding a permit). -/
def inFlight (s : DlState) : Nat := s.tasks.countP holdsPermit

/-- Permit accounting invariant: free permits plus permits held equal the pool
size `p` given to `Semaphore::new`. -/
def PermitInv (p : Nat) (s : DlState) : Prop := s.available + inFlight s = p

/-- Per-task flag discipline: before the task leaves `holding` neither the
HTTP request nor the local file exists; from `streaming` on, both do. -/
def taskInv (t : DTask) : Prop :=
  match t.phase with
  | .pending => t.requested = false ∧ t.fileCreated = false
  | .exited => t.requested = false ∧ t.fileCreated = false
  | .holding => t.requested = false ∧ t.fileCreated = false
  | .streaming _ _ => t.requested = true ∧ t.fileCreated = true
  | .done => t.requested = true ∧ t.fileCreated = true

/-! ### Eventsub session model (src/eventsub.rs) -/

/-- JSON values, mirroring `serde_json::Value` as used by `handle_ws_message`. -/
inductive Json
  | null
  | bool (b : Bool)
  | str (s : String)
  | num (n : Int)
  | arr (xs : List Json)
  | obj (fields : List (String × Json))

/-- `serde_json::Value` square-bracket indexing by key: returns the field of an
object, and `Null` when the key is absent or the value is not an object. -/
def Json.get : Json → String → Json
  | .obj fields, k =>
    match fields.find? (fun p => p.1 == k) with
    | some p => p.2
    | none => .null
  | _, _ => .null

/-- `Value::as_str`: `Some` exactly for JSON strings. -/
def Json.asStr : Json → Option String
  | .str s => some s
  | _ => none

/-- Rust `str::parse::<u64>`: optional leading plus sign, at least one digit,
all digits, value below 2^64. -/
def parseU64 (s : String) : Option Nat :=
  let chars := s.data
  let digits := if chars.head? = some '+' then chars.tail else chars
  if digits.isEmpty then none
  else if digits.all (fun c => c.isDigit) then
    let v := digits.foldl (fun a c => a * 10 + (c.toNat - 48)) 0
    if v < 2 ^ 64 then some v else none
  else none

/-- An inbound websocket frame: a text frame carrying the result of
`serde_json::from_str` (`none` models unparseable JSON, which the code
unwraps), a close frame, or any other frame kind (binary, ping, pong). -/
inductive WsMessage
  | text (parsed : Option Json)
  | close (code : Option Nat) (reason : String)
  | other

/-- `SocketAction` from src/eventsub.rs. -/
inductive SocketAction
  | stay
  | reconnect (url : String)

/-- Observable side effects of one `handle_ws_message` call: the value written
into the `session_id` `OnceCell` (if any), whether `notify_one` fired, and the
broadcaster id sent on the `tx` channel (if any). -/
structure HandleEffects where
  sessionSet : Option Json
  notified : Bool
  sent : Option Nat

/-- No side effects. -/
def noEffects : HandleEffects := ⟨none, false, none⟩

/-- Result of one `handle_ws_message` call: a socket action with its effects,
or a panic (an `unwrap`/`expect`/`panic!` firing), which kills the task. -/
inductive HandleResult
  | act (a : SocketAction) (eff : HandleEffects)
  | panicked (msg : String)

/-- `handle_ws_message` (src/eventsub.rs lines 137-202), as a function of the
frame and of whether the `session_id` cell is already initialized.
Mirrors the source: unparseable JSON is unwrapped (panic); while the cell is
uninitialized, any text frame writes `payload.session.id` (even `Null`) and
notifies; then classification by `metadata.message_type`: a missing or
non-string type is logged and skipped; `session_keepalive` is a no-op;
`notification` unwraps `payload.event.broadcaster_user_id` as a string and
parses it (panic on either failure) then sends it; `session_reconnect`
unwraps `payload.session.reconnect_url` (panic when absent); unknown types
are logged and skipped; a close frame always panics; other frames no-op. -/
def handle_ws_message (sessionInitialized : Bool) (message : WsMessage) : HandleResult :=
  match message with
  | .text none => .panicked "serde_json::from_str unwrap"
  | .text (some m) =>
    if sessionInitialized = false then
      .act .stay ⟨some (((m.get "payload").get "session").get "id"), true, none⟩
    else
      match (((m.get "metadata").get "message_type")).asStr with
      | none => .act .stay noEffects
      | some mt =>
        if mt = "session_keepalive" then .act .stay noEffects
        else if mt = "notification" then
          match (((m.get "payload").get "event").get "broadcaster_user_id").asStr with
          | none => .panicked "Stream offline notification message does not contain broadcaster_user_id!"
          | some cid =>
            match parseU64 cid with
            | none => .panicked "parse u64 unwrap"
            | some v => .act .stay ⟨none, false, some v⟩
        else if mt = "session_reconnect" then
          match (((m.get "payload").get "session").get "reconnect_url").asStr with
          | none => .panicked "reconnect_url as_str unwrap"
          | some url => .act (.reconnect url) noEffects
        else .act .stay noEffects
  | .close _ _ => .panicked "Twitch closed WS connection!"
  | .other => .act .stay noEffects

/-- What the inner session loop selects on each iteration: the cancellation
token, a 40-second silence timeout, or an arriving frame. -/
inductive LoopEvent
  | ctCancelled
  | keepaliveTimeout
  | frame (m : WsMessage)

/-- Outcome of one iteration of the `'session` loop in `listen_for_offline`. -/
inductive IterResult
  | stopAll
  | panicked (msg : String)
  | continueSession (eff : HandleEffects)
  | reconnect (url : String) (eff : HandleEffects)

/-- One iteration of the `'session` loop (src/eventsub.rs lines 74-88):
cancellation breaks out of all loops (ends the stream cleanly); 40 s of
silence panics; a frame is dispatched to `handle_ws_message`, whose
`Reconnect` action breaks the session loop with the new url. -/
def sessionIter (sessionInitialized : Bool) (ev : LoopEvent) : IterResult :=
  match ev with
  | .ctCancelled => .stopAll
  | .keepaliveTimeout =>
    .panicked "Did not get any message for 40s. Connection is effectively poisoned!"
  | .frame m =>
    match handle_ws_message sessionInitialized m with
    | .panicked msg => .panicked msg
    | .act .stay eff => .continueSession eff
    | .act (.reconnect url) eff => .reconnect url eff

/-- Per-subject outcome of the registration POST: a network/send error (which
the code unwraps, panicking) or an HTTP response with a status code. -/
inductive RegOutcome
  | netError
  | status (code : Nat)
deriving DecidableEq

/-- `reqwest::StatusCode::is_success`: 2xx. -/
def isSuccessStatus (code : Nat) : Bool := 200 ≤ code && code < 300

/-- Success of one registration outcome (a network error is not a success). -/
def regSuccess : RegOutcome → Bool
  | .netError => false
  | .status code => isSuccessStatus code

/-- The registration loop (src/eventsub.rs lines 101-124): one POST per
broadcaster id, in order; a non-success status is logged for that id only and
the loop continues; a send error is unwrapped (panic), aborting the task.
Returns the per-subject report (id, succeeded?). -/
def registerAll (outcome : Nat → RegOutcome) : List Nat → Except String (List (Nat × Bool))
  | [] => .ok []
  | id :: rest =>
    match outcome id with
    | .netError => .error "Sending stream.offline event request: send unwrap"
    | .status code =>
      match registerAll outcome rest with
      | .ok tail => .ok ((id, isSuccessStatus code) :: tail)
      | .error e => .error e

/-- A well-formed `notification` frame for a broadcaster id string. -/
def mkNotification (uidStr : String) : Json :=
  .obj [("metadata", .obj [("message_type", .str "notification")]),
        ("payload", .obj [("event", .obj [("broadcaster_user_id", .str uidStr)])])]

/-- Events of the whole-connection lifetime: a text frame arrives on the
current connection, or the session loop breaks and a new connection
(generation) starts (`session_reconnect`, the `'session` break). -/
inductive SessEvent
  | recvText (m : Json)
  | newGeneration

/-- State of the session-identity handoff across connection generations:
the `OnceCell` content (created once in `listen_for_offline`, before the
connection loop, and never replaced), the current generation (1-based), the
generations at which a `set` happened, and the generation of every received
text frame. -/
structure SessState where
  sessionId : Option Json
  generation : Nat
  setEvents : List Nat
  msgs : List Nat

/-- Initial state: empty cell, first generation. -/
def sessInit : SessState := ⟨none, 1, [], []⟩

/-- One lifetime event. A text frame writes the cell only when it is still
uninitialized (`OnceCell::initialized` check in `handle_ws_message`); a new
generation reuses the same cell — the code never resets it. -/
def sessStep (s : SessState) : SessEvent → SessState
  | .recvText m =>
    match s.sessionId with
    | none =>
      { s with sessionId := some (((m.get "payload").get "session").get "id"),
               setEvents := s.setEvents ++ [s.generation],
               msgs := s.msgs ++ [s.generation] }
    | some _ => { s with msgs := s.msgs ++ [s.generation] }
  | .newGeneration => { s with generation := s.generation + 1 }

/-- Fold a lifetime trace. -/
def sessRun (s : SessState) : List SessEvent → SessState
  | [] => s
  | e :: rest => sessRun (sessStep s e) rest

/-- A welcome-shaped frame carrying a session id. -/
def mkWelcome (sid : String) : Json :=
  .obj [("payload", .obj [("session", .obj [("id", .str sid)])])]

/-! ### Segment-transfer failure model (`download` task body, src/main.rs
lines 382-395) -/

/-- Outcome of one HTTP GET for a segment: a network/send error, or a response
with a status code and a number of body chunks. -/
inductive FetchOutcome
  | netError
  | response (status : Nat) (chunks : Nat)
deriving DecidableEq

/-- Does the outcome make the task panic? Only a send error does: the code
calls `client.get(url).send().await.unwrap()` and never inspects `status`. -/
def fetchPanics : FetchOutcome → Bool
  | .netError => true
  | .response _ _ => false

/-- One segment task's transfer, given an oracle of outcomes for successive
attempts (attempt 0, 1, ...). The code makes exactly one attempt: a send
error is unwrapped (panic); otherwise the body — whatever the status — is
streamed to the file and the number of chunks written is returned. -/
def downloadSegmentTask (oracle : Nat → FetchOutcome) : Except String Nat :=
  match oracle 0 with
  | .netError => .error "Downloading video stream: unwrap on send error"
  | .response _ chunks => .ok chunks

/-- The job after `join_all` (src/main.rs line 402): tasks are joined in
order; if any task panicked the panic resurfaces (none of `Failed` marking,
`PartialFailure`, or a partial result exists in the code), otherwise
`segment_file_names` is handed to concatenation. -/
def downloadJob : List FetchOutcome → List String → Except String (List String)
  | [], names => .ok names
  | o :: rest, names =>
    match o with
    | .netError => .error "Downloading video stream: unwrap on send error"
    | .response _ _ => downloadJob rest names

/-! ### `truncate_string` model (src/util.rs lines 19-34), over UTF-8 byte
lists -/

/-- Rust `str::is_char_boundary` on a byte list: position 0 always; the end of
the list; otherwise the byte at `i` must not be a UTF-8 continuation byte
(`b as i8 >= -0x40`, i.e. `b < 0x80 ∨ 0xC0 ≤ b`). -/
def isCharBoundary (s : List Nat) (i : Nat) : Bool :=
  if i = 0 then true
  else
    match s[i]? with
    | none => i = s.length
    | some b => b < 0x80 || 0xC0 ≤ b

/-- Rust `str::get(..k)`: `Some` of the first `k` bytes when `k` is a char
boundary (which includes `k ≤ len`), else `None`. -/
def strGetTo (s : List Nat) (k : Nat) : Option (List Nat) :=
  if isCharBoundary s k then some (s.take k) else none

/-- The retry loop of `truncate_string`: try `get(..attempted - 3)`, and on
`None` decrement `attempted` and retry. Terminates because position 0 is
always a char boundary. -/
def truncLoop (s : List Nat) (attempted : Nat) : List Nat :=
  if h : (strGetTo s (attempted - 3)).isSome then (strGetTo s (attempted - 3)).get h
  else truncLoop s (attempted - 1)
termination_by attempted
decreasing_by
  have hb : ¬isCharBoundary s (attempted - 3) = true := by
    intro hbt
    simp [strGetTo, hbt] at h
  have h0 : isCharBoundary s 0 = true := rfl
  have : attempted - 3 ≠ 0 := by
    intro he
    rw [he] at hb
    exact hb h0
  omega

/-- `truncate_string` (src/util.rs): the string unchanged when its byte length
is at most `max_length`; otherwise the surviving prefix followed by `"..."`
(bytes 46,46,46). Faithful for `max_length ≥ 3`; below that the Rust
`attempted_len - 3` underflows `usize`. -/
def truncate_string (s : List Nat) (max_length : Nat) : List Nat :=
  if s.length ≤ max_length then s
  else truncLoop s max_length ++ [46, 46, 46]

/-- Every successful step either sets the cancellation flag or rewrites exactly
one task according to `TaskStep`, leaving `cancelled` and `names` unchanged. -/
theorem step_decomp {s s' : DlState} {a : Act} (h : step s a = some s') :
    (s' = { s with cancelled := true }) ∨
    (∃ j t t', s.tasks[j]? = some t ∧
      s' = { s with available := s'.available, tasks := s.tasks.set j t' } ∧
      TaskStep s.available s'.available t t') := by
  cases a with
  | cancel => cases h; exact Or.inl rfl
  | observeCancel i =>
    simp only [step] at h
    cases ht : s.tasks[i]? with
    | none => simp only [ht] at h; cases h
    | some t =>
      simp only [ht] at h
      split at h
      · rename_i hg
        cases h
        exact Or.inr ⟨i, t, _, ht, rfl, Or.inl ⟨rfl, hg.2, rfl⟩⟩
      · cases h
  | acquire i =>
    simp only [step] at h
    cases ht : s.tasks[i]? with
    | none => simp only [ht] at h; cases h
    | some t =>
      simp only [ht] at h
      split at h
      · rename_i hg
        cases h
        exact Or.inr ⟨i, t, _, ht, rfl, Or.inr (Or.inl ⟨rfl, hg.1, hg.2, rfl⟩)⟩
      · cases h
  | startStream i =>
    simp only [step] at h
    cases ht : s.tasks[i]? with
    | none => simp only [ht] at h; cases h
    | some t =>
      simp only [ht] at h
      split at h
      · rename_i hg
        cases h
        exact Or.inr ⟨i, t, _, ht, rfl, Or.inr (Or.inr (Or.inl ⟨rfl, hg, rfl⟩))⟩
      · cases h
  | chunk i =>
    simp only [step] at h
    cases ht : s.tasks[i]? with
    | none => simp only [ht] at h; cases h
    | some t =>
      simp only [ht] at h
      cases hp : t.phase <;> simp only [hp] at h
      case streaming r w =>
        cases r with
        | zero => cases h
        | succ r =>
          cases h
          exact Or.inr ⟨i, t, _, ht, rfl, Or.inr (Or.inr (Or.inr (Or.inl ⟨r, w, hp, rfl, rfl⟩)))⟩
      all_goals cases h
  | finish i =>
    simp only [step] at h
    cases ht : s.tasks[i]? with
    | none => simp only [ht] at h; cases h
    | some t =>
      simp only [ht] at h
      cases hp : t.phase <;> simp only [hp] at h
      case streaming r w =>
        cases r with
        | zero =>
          cases h
          exact Or.inr ⟨i, t, _, ht, rfl, Or.inr (Or.inr (Or.inr (Or.inr ⟨w, hp, rfl, rfl⟩)))⟩
        | succ r => cases h
      all_goals cases h

theorem step_names {s s' : DlState} {a : Act} (h : step s a = some s') :
    s'.names = s.names := by
  rcases step_decomp h with rfl | ⟨j, t, t', _, hs', _⟩
  · rfl
  · rw [hs']

theorem run_names {acts : List Act} {s s' : DlState} (h : run s acts = some s') :
    s'.names = s.names := by
  induction acts generalizing s with
  | nil => simp [run] at h; simp [h]
  | cons a rest ih =>
    simp only [run] at h
    cases hs : step s a with
    | none => simp [hs] at h
    | some s1 =>
      rw [hs] at h
      exact (ih h).trans (step_names hs)

theorem TaskStep_permit {a a' : Nat} {t t' : DTask} (h : TaskStep a a' t t') :
    a' + (if holdsPermit t' then 1 else 0) = a + (if holdsPermit t then 1 else 0) := by
  rcases h with ⟨rfl, hp, rfl⟩ | ⟨rfl, hp, hpos, rfl⟩ | ⟨rfl, hp, rfl⟩ |
    ⟨r, w, hp, rfl, rfl⟩ | ⟨w, hp, rfl, rfl⟩ <;>
    simp [holdsPermit, hp] <;> omega

theorem step_PermitInv {p : Nat} {s s' : DlState} {a : Act} (h : step s a = some s')
    (hi : PermitInv p s) : PermitInv p s' := by
  rcases step_decomp h with rfl | ⟨j, t, t', ht, hs', hts⟩
  · exact hi
  · obtain ⟨hj, hje⟩ := List.getElem?_eq_some.mp ht
    have htasks : s'.tasks = s.tasks.set j t' := by rw [hs']
    have hperm := TaskStep_permit hts
    have hcount := List.countP_set holdsPermit s.tasks j t' hj
    have hmem : (holdsPermit t = true) → 1 ≤ s.tasks.countP holdsPermit := by
      intro hb
      refine List.countP_pos_iff.mpr ⟨t, ?_, hb⟩
      rw [← hje]; exact List.getElem_mem hj
    unfold PermitInv inFlight at hi ⊢
    rw [htasks, hcount, hje]
    have hge : (if holdsPermit t = true then 1 else 0) ≤ s.tasks.countP holdsPermit := by
      by_cases hb : holdsPermit t = true
      · simpa [hb] using hmem hb
      · simp [hb]
    omega

theorem run_PermitInv {p : Nat} {s s' : DlState} {acts : List Act}
    (h : run s acts = some s') (hi : PermitInv p s) : PermitInv p s' := by
  induction acts generalizing s with
  | nil => simp [run] at h; rwa [← h]
  | cons a rest ih =>
    simp only [run] at h
    cases hs : step s a with
    | none => rw [hs] at h; cases h
    | some s1 =>
      rw [hs] at h
      exact ih h (step_PermitInv hs hi)

theorem initState_PermitInv (segs : List (String × Nat)) (p : Nat) :
    PermitInv p (initState segs p) := by
  unfold PermitInv inFlight initState
  simp only []
  have : (segs.map fun sc => (⟨sc.1, sc.2, .pending, false, false⟩ : DTask)).countP
      holdsPermit = 0 := by
    rw [List.countP_eq_zero]
    intro t ht
    obtain ⟨sc, _, rfl⟩ := List.mem_map.mp ht
    simp [holdsPermit]
  omega

/-- C2: for every download job with concurrency limit `p ≥ 1`, in every state
reachable under any scheduler, the number of segment transfers concurrently
holding a permit is at most `p`. -/
theorem C2_in_flight_bounded_by_limit (segs : List (String × Nat)) (p : Nat)
    (hp : 1 ≤ p) (acts : List Act) (s : DlState)
    (h : run (initState segs p) acts = some s) : inFlight s ≤ p := by
  have hi := run_PermitInv h (initState_PermitInv segs p)
  unfold PermitInv at hi
  omega

/-- C2 witness: with limit 2 and three segments, after both permits are taken
and one stream started, at most 2 transfers are in flight. -/
theorem C2_in_flight_bounded_by_limit_witness :
    1 ≤ 2 ∧
      inFlight { cancelled := false, available := 0,
                 tasks := [⟨"000.ts", 1, .holding, false, false⟩,
                           ⟨"001.ts", 1, .streaming 1 0, true, true⟩,
                           ⟨"002.ts", 1, .pending, false, false⟩],
                 names := ["000.ts", "001.ts", "002.ts"] } ≤ 2 :=
  ⟨by decide,
    C2_in_flight_bounded_by_limit [("000.ts", 1), ("001.ts", 1), ("002.ts", 1)] 2
      (by decide) [.acquire 0, .acquire 1, .startStream 1]
      { cancelled := false, available := 0,
        tasks := [⟨"000.ts", 1, .holding, false, false⟩,
                  ⟨"001.ts", 1, .streaming 1 0, true, true⟩,
                  ⟨"002.ts", 1, .pending, false, false⟩],
        names := ["000.ts", "001.ts", "002.ts"] } rfl⟩

theorem TaskStep_taskInv {a a' : Nat} {t t' : DTask} (h : TaskStep a a' t t')
    (hi : taskInv t) : taskInv t' := by
  rcases h with ⟨rfl, hp, _⟩ | ⟨rfl, hp, _, _⟩ | ⟨rfl, hp, _⟩ |
    ⟨r, w, hp, rfl, _⟩ | ⟨w, hp, rfl, _⟩ <;>
    unfold taskInv at hi ⊢ <;> rw [hp] at hi <;> simp_all

theorem TaskStep_src_not_exited {a a' : Nat} {t t' : DTask} (h : TaskStep a a' t t') :
    t.phase ≠ .exited := by
  rcases h with ⟨_, hp, _⟩ | ⟨_, hp, _, _⟩ | ⟨_, hp, _⟩ |
    ⟨r, w, hp, _, _⟩ | ⟨w, hp, _, _⟩ <;> rw [hp] <;> simp

theorem TaskStep_fileCreated {a a' : Nat} {t t' : DTask} (h : TaskStep a a' t t')
    (hf : t.fileCreated = true) : t'.fileCreated = true := by
  rcases h with ⟨rfl, _, _⟩ | ⟨rfl, _, _, _⟩ | ⟨rfl, _, _⟩ |
    ⟨r, w, _, rfl, _⟩ | ⟨w, _, rfl, _⟩ <;> simpa using hf

/-- An `exited` task is frozen: no later step changes its record. -/
theorem step_exited_frozen {s s' : DlState} {a : Act} {i : Nat} {t : DTask}
    (h : step s a = some s') (ht : s.tasks[i]? = some t) (hex : t.phase = .exited) :
    s'.tasks[i]? = some t := by
  rcases step_decomp h with rfl | ⟨j, u, u', hu, hs', hts⟩
  · exact ht
  · have htasks : s'.tasks = s.tasks.set j u' := by rw [hs']
    by_cases hij : j = i
    · subst hij
      rw [hu] at ht
      cases ht
      exact absurd hex (TaskStep_src_not_exited hts)
    · rw [htasks, List.getElem?_set_ne hij]
      exact ht

theorem run_exited_frozen {s s' : DlState} {acts : List Act} {i : Nat} {t : DTask}
    (h : run s acts = some s') (ht : s.tasks[i]? = some t) (hex : t.phase = .exited) :
    s'.tasks[i]? = some t := by
  induction acts generalizing s with
  | nil => simp [run] at h; rw [← h]; exact ht
  | cons a rest ih =>
    simp only [run] at h
    cases hs : step s a with
    | none => rw [hs] at h; cases h
    | some s1 =>
      rw [hs] at h
      exact ih h (step_exited_frozen hs ht hex)

theorem step_AllTaskInv {s s' : DlState} {a : Act} (h : step s a = some s')
    (hi : ∀ t ∈ s.tasks, taskInv t) : ∀ t ∈ s'.tasks, taskInv t := by
  rcases step_decomp h with rfl | ⟨j, u, u', hu, hs', hts⟩
  · exact hi
  · have htasks : s'.tasks = s.tasks.set j u' := by rw [hs']
    intro t ht
    rw [htasks] at ht
    rcases List.mem_or_eq_of_mem_set ht with hmem | rfl
    · exact hi t hmem
    · obtain ⟨hj, hje⟩ := List.getElem?_eq_some.mp hu
      refine TaskStep_taskInv hts (hi u ?_)
      rw [← hje]; exact List.getElem_mem hj

theorem run_AllTaskInv {s s' : DlState} {acts : List Act} (h : run s acts = some s')
    (hi : ∀ t ∈ s.tasks, taskInv t) : ∀ t ∈ s'.tasks, taskInv t := by
  induction acts generalizing s with
  | nil => simp [run] at h; rw [← h]; exact hi
  | cons a rest ih =>
    simp only [run] at h
    cases hs : step s a with
    | none => rw [hs] at h; cases h
    | some s1 =>
      rw [hs] at h
      exact ih h (step_AllTaskInv hs hi)

theorem initState_AllTaskInv (segs : List (String × Nat)) (p : Nat) :
    ∀ t ∈ (initState segs p).tasks, taskInv t := by
  intro t ht
  obtain ⟨sc, _, rfl⟩ := List.mem_map.mp ht
  exact ⟨rfl, rfl⟩

/-- C6: once a task has observed cancellation (its `select!` resolved the
`ct.cancelled()` branch and it returned), it stays exited forever — it never
acquires a permit, sends no HTTP request and creates no local file. -/
theorem C6_cancelled_task_never_starts (segs : List (String × Nat)) (p : Nat)
    (acts : List Act) (s : DlState) (i : Nat) (t : DTask)
    (h : run (initState segs p) acts = some s)
    (ht : s.tasks[i]? = some t) (hex : t.phase = .exited) :
    t.requested = false ∧ t.fileCreated = false ∧
      ∀ acts' s', run s acts' = some s' → s'.tasks[i]? = some t := by
  have hall := run_AllTaskInv h (initState_AllTaskInv segs p)
  obtain ⟨hj, hje⟩ := List.getElem?_eq_some.mp ht
  have hmem : t ∈ s.tasks := by rw [← hje]; exact List.getElem_mem hj
  have hinv := hall t hmem
  unfold taskInv at hinv
  rw [hex] at hinv
  exact ⟨hinv.1, hinv.2, fun acts' s' h' => run_exited_frozen h' ht hex⟩

/-- C6 witness: one segment, cancellation observed before permit acquisition;
the task is exited with no request sent and no file created, and remains so
after a further scheduler step. -/
theorem C6_cancelled_task_never_starts_witness :
    DTask.requested ⟨"000.ts", 1, .exited, false, false⟩ = false ∧
      DTask.fileCreated ⟨"000.ts", 1, .exited, false, false⟩ = false ∧
      (DlState.tasks { cancelled := true, available := 1,
                       tasks := [⟨"000.ts", 1, .exited, false, false⟩],
                       names := ["000.ts"] })[0]? =
        some (⟨"000.ts", 1, .exited, false, false⟩ : DTask) := by
  have h := C6_cancelled_task_never_starts [("000.ts", 1)] 1
    [.cancel, .observeCancel 0]
    { cancelled := true, available := 1,
      tasks := [⟨"000.ts", 1, .exited, false, false⟩], names := ["000.ts"] }
    0 ⟨"000.ts", 1, .exited, false, false⟩ rfl rfl rfl
  refine ⟨h.1, h.2.1, ?_⟩
  simpa using h.2.2 [.cancel]
    { cancelled := true, available := 1,
      tasks := [⟨"000.ts", 1, .exited, false, false⟩], names := ["000.ts"] } rfl

theorem step_fileCreated_persists {s s' : DlState} {a : Act} {i : Nat} {t : DTask}
    (h : step s a = some s') (ht : s.tasks[i]? = some t) (hf : t.fileCreated = true) :
    (s'.tasks[i]?).map DTask.fileCreated = some true := by
  rcases step_decomp h with rfl | ⟨j, u, u', hu, hs', hts⟩
  · simp only [ht, Option.map, hf]
  · have htasks : s'.tasks = s.tasks.set j u' := by rw [hs']
    by_cases hij : j = i
    · subst hij
      rw [hu] at ht
      cases ht
      obtain ⟨hj, _⟩ := List.getElem?_eq_some.mp hu
      have hlen : j < (s.tasks.set j u').length := by simpa using hj
      rw [htasks, List.getElem?_eq_getElem hlen, List.getElem_set_self (by simpa using hj)]
      simp [TaskStep_fileCreated hts hf]
    · rw [htasks, List.getElem?_set_ne hij, ht]
      simp [hf]

theorem run_fileCreated_persists {s s' : DlState} {acts : List Act} {i : Nat} {t : DTask}
    (h : run s acts = some s') (ht : s.tasks[i]? = some t) (hf : t.fileCreated = true) :
    (s'.tasks[i]?).map DTask.fileCreated = some true := by
  induction acts generalizing s t with
  | nil => simp [run] at h; rw [← h, ht]; simp [hf]
  | cons a rest ih =>
    simp only [run] at h
    cases hs : step s a with
    | none => rw [hs] at h; cases h
    | some s1 =>
      rw [hs] at h
      have h1 := step_fileCreated_persists hs ht hf
      cases ht1 : s1.tasks[i]? with
      | none => rw [ht1] at h1; cases h1
      | some t1 =>
        rw [ht1] at h1
        exact ih h ht1 (by simpa using h1)

/-- C5 counterexample: one segment of two chunks, limit 1. Cancellation is
signalled while the transfer is in flight (holding its permit, mid-stream),
yet the byte loop keeps running: two further chunks are written after
cancellation, the task ends `done` — not `Failed` — and its local file is
created and still present in the drained final state, contradicting
"the transfer aborts promptly, its partially written local file is removed,
and its state becomes Failed". -/
theorem C5_counterexample :
    run (initState [("000.ts", 2)] 1) [.acquire 0, .startStream 0, .cancel] =
      some { cancelled := true, available := 0,
             tasks := [⟨"000.ts", 2, .streaming 2 0, true, true⟩], names := ["000.ts"] } ∧
    holdsPermit ⟨"000.ts", 2, .streaming 2 0, true, true⟩ = true ∧
    run { cancelled := true, available := 0,
          tasks := [⟨"000.ts", 2, .streaming 2 0, true, true⟩], names := ["000.ts"] }
        [.chunk 0, .chunk 0, .finish 0] =
      some { cancelled := true, available := 1,
             tasks := [⟨"000.ts", 2, .done, true, true⟩], names := ["000.ts"] } ∧
    drained { cancelled := true, available := 1,
              tasks := [⟨"000.ts", 2, .done, true, true⟩], names := ["000.ts"] } = true ∧
    DTask.phase ⟨"000.ts", 2, .done, true, true⟩ = .done ∧
    DTask.fileCreated ⟨"000.ts", 2, .done, true, true⟩ = true :=
  ⟨rfl, rfl, rfl, rfl, rfl, rfl⟩

/-- C5 amended: cancellation is checked only before permit acquisition; a
transfer already in flight when cancellation is signalled is never aborted —
its chunk and finish steps carry no cancellation guard, it runs to completion
and its file is kept. Formally: in any reachable state a `done` task's file
exists, and a created file persists through every continuation (the code has
no file-removal path), so no cancellation ever removes a partial file or
marks the segment `Failed`. -/
theorem C5_amended_no_cancel_abort (segs : List (String × Nat)) (p : Nat)
    (acts : List Act) (s : DlState) (h : run (initState segs p) acts = some s) :
    (∀ (i : Nat) (t : DTask), s.tasks[i]? = some t → t.phase = .done → t.fileCreated = true) ∧
    (∀ (i : Nat) (t : DTask), s.tasks[i]? = some t → t.fileCreated = true →
      ∀ acts' s', run s acts' = some s' →
        (s'.tasks[i]?).map DTask.fileCreated = some true) := by
  have hall := run_AllTaskInv h (initState_AllTaskInv segs p)
  constructor
  · intro i t ht hdone
    obtain ⟨hj, hje⟩ := List.getElem?_eq_some.mp ht
    have hmem : t ∈ s.tasks := by rw [← hje]; exact List.getElem_mem hj
    have hinv := hall t hmem
    unfold taskInv at hinv
    rw [hdone] at hinv
    exact hinv.2
  · intro i t ht hf acts' s' h'
    exact run_fileCreated_persists h' ht hf

/-- C5 amended witness: the counterexample trace — its `done` task has its
file, and the file persists through a further (empty) continuation. -/
theorem C5_amended_no_cancel_abort_witness :
    DTask.fileCreated ⟨"000.ts", 2, .done, true, true⟩ = true ∧
      (DlState.tasks { cancelled := true, available := 1,
                       tasks := [⟨"000.ts", 2, .done, true, true⟩],
                       names := ["000.ts"] })[0]?.map DTask.fileCreated = some true := by
  have h := C5_amended_no_cancel_abort [("000.ts", 2)] 1
    [.acquire 0, .startStream 0, .cancel, .chunk 0, .chunk 0, .finish 0]
    { cancelled := true, available := 1,
      tasks := [⟨"000.ts", 2, .done, true, true⟩], names := ["000.ts"] } rfl
  refine ⟨h.1 0 ⟨"000.ts", 2, .done, true, true⟩ rfl rfl, ?_⟩
  exact h.2 0 ⟨"000.ts", 2, .done, true, true⟩ rfl rfl []
    { cancelled := true, available := 1,
      tasks := [⟨"000.ts", 2, .done, true, true⟩], names := ["000.ts"] } rfl

/-- C1: for every download job and every scheduler interleaving (hence every
permutation of segment completion latencies), the file list handed to
`concat_video` — `segment_file_names` in the state reached — equals the
playlist's enumeration-order uri list; completion order never influences it. -/
theorem C1_output_order_latency_invariant (segs : List (String × Nat)) (p : Nat)
    (acts : List Act) (s : DlState) (h : run (initState segs p) acts = some s) :
    s.names = segs.map Prod.fst := by
  rw [run_names h]; rfl

/-- C1 witness: the spec scenario — segments `000.ts, 001.ts, 002.ts`, limit 2,
completion order 001 → 000 → 002 — reaches a drained state whose file list is
`[000.ts, 001.ts, 002.ts]` in playlist order. -/
theorem C1_output_order_latency_invariant_witness :
    run (initState [("000.ts", 1), ("001.ts", 1), ("002.ts", 1)] 2)
        [.acquire 0, .acquire 1, .startStream 1, .chunk 1, .finish 1,
         .startStream 0, .chunk 0, .finish 0,
         .acquire 2, .startStream 2, .chunk 2, .finish 2] =
      some { cancelled := false, available := 2,
             tasks := [⟨"000.ts", 1, .done, true, true⟩, ⟨"001.ts", 1, .done, true, true⟩,
                       ⟨"002.ts", 1, .done, true, true⟩],
             names := ["000.ts", "001.ts", "002.ts"] } ∧
    drained { cancelled := false, available := 2,
              tasks := [⟨"000.ts", 1, .done, true, true⟩, ⟨"001.ts", 1, .done, true, true⟩,
                        ⟨"002.ts", 1, .done, true, true⟩],
              names := ["000.ts", "001.ts", "002.ts"] } = true ∧
    DlState.names { cancelled := false, available := 2,
                    tasks := [⟨"000.ts", 1, .done, true, true⟩, ⟨"001.ts", 1, .done, true, true⟩,
                              ⟨"002.ts", 1, .done, true, true⟩],
                    names := ["000.ts", "001.ts", "002.ts"] } =
      ["000.ts", "001.ts", "002.ts"] :=
  ⟨rfl, rfl,
    C1_output_order_latency_invariant [("000.ts", 1), ("001.ts", 1), ("002.ts", 1)] 2
      [.acquire 0, .acquire 1, .startStream 1, .chunk 1, .finish 1,
       .startStream 0, .chunk 0, .finish 0,
       .acquire 2, .startStream 2, .chunk 2, .finish 2]
      { cancelled := false, available := 2,
        tasks := [⟨"000.ts", 1, .done, true, true⟩, ⟨"001.ts", 1, .done, true, true⟩,
                  ⟨"002.ts", 1, .done, true, true⟩],
        names := ["000.ts", "001.ts", "002.ts"] } rfl⟩

/-- C3: the source does not reconnect on these conditions. 40 seconds of
silence while connected makes the session loop panic (killing the spawned
receive task and, with it, any further events), and a provider close frame
makes `handle_ws_message` panic — neither closes just the socket nor restarts
at a new connection generation. This evaluates the embedded code at the two
failing inputs of the claim. -/
theorem C3_panic_on_timeout_and_close :
    sessionIter true .keepaliveTimeout =
      .panicked "Did not get any message for 40s. Connection is effectively poisoned!" ∧
    sessionIter true (.frame (.close (some 4000) "server going away")) =
      .panicked "Twitch closed WS connection!" :=
  ⟨rfl, rfl⟩

/-- C4 counterexample: a segment whose single transfer attempt hits a network
error makes the task panic at once — no retry, no backoff, no `Failed` state —
and the panic resurfaces at `join_all`, so the job panics instead of
returning a partial-failure report; meanwhile a non-success HTTP status (500)
is not treated as a failure at all: its body is streamed and the task
succeeds. -/
theorem C4_counterexample :
    downloadSegmentTask (fun _ => .netError) =
      .error "Downloading video stream: unwrap on send error" ∧
    downloadJob [.netError, .response 200 3] ["000.ts", "001.ts"] =
      .error "Downloading video stream: unwrap on send error" ∧
    downloadSegmentTask (fun _ => .response 500 7) = .ok 7 :=
  ⟨rfl, rfl, rfl⟩

/-- C4 amended: a segment transfer makes exactly one attempt — the result
depends only on attempt 0 of the oracle, so no retry or backoff exists; the
HTTP status is never inspected (any response, success or not, is streamed and
the task completes); and the job either panics (when some task hit a network
error) or returns the full file list — no partial-failure value exists. -/
theorem C4_amended_single_attempt_status_ignored :
    (∀ oracle oracle' : Nat → FetchOutcome, oracle 0 = oracle' 0 →
      downloadSegmentTask oracle = downloadSegmentTask oracle') ∧
    (∀ status chunks : Nat,
      downloadSegmentTask (fun _ => .response status chunks) = .ok chunks) ∧
    (∀ (outcomes : List FetchOutcome) (names : List String),
      downloadJob outcomes names =
        if outcomes.any fetchPanics then
          .error "Downloading video stream: unwrap on send error"
        else .ok names) := by
  refine ⟨?_, ?_, ?_⟩
  · intro o o' h
    unfold downloadSegmentTask
    rw [h]
  · intro st c
    rfl
  · intro outcomes names
    induction outcomes with
    | nil => rfl
    | cons o rest ih =>
      cases o with
      | netError => simp [downloadJob, fetchPanics]
      | response st c => simp [downloadJob, fetchPanics, ih]

/-- C4 amended witness: two oracles agreeing on attempt 0 give the same
result; a 404 response still succeeds; a job whose only segment got a 500
response returns the file list. -/
theorem C4_amended_single_attempt_status_ignored_witness :
    downloadSegmentTask (fun _ => .netError) =
      downloadSegmentTask (fun n => if n = 0 then .netError else .response 200 1) ∧
    downloadSegmentTask (fun _ => .response 404 5) = .ok 5 ∧
    downloadJob [.response 500 1] ["a.ts"] = .ok ["a.ts"] := by
  have T := C4_amended_single_attempt_status_ignored
  refine ⟨T.1 _ _ rfl, T.2.1 404 5, ?_⟩
  have h := T.2.2 [.response 500 1] ["a.ts"]
  simpa using h

/-- C7 counterexample: classified frames with a missing or malformed field
that panic instead of being skipped: a `notification` without
`broadcaster_user_id`, an unparseable text frame, and a `session_reconnect`
without `reconnect_url`. Each kills the receive loop (and the process), so
the claim "such a frame never terminates the session" is false. -/
theorem C7_counterexample :
    handle_ws_message true
        (.text (some (.obj [("metadata", .obj [("message_type", .str "notification")]),
                            ("payload", .obj [])]))) =
      .panicked "Stream offline notification message does not contain broadcaster_user_id!" ∧
    handle_ws_message true (.text none) = .panicked "serde_json::from_str unwrap" ∧
    handle_ws_message true
        (.text (some (.obj [("metadata", .obj [("message_type", .str "session_reconnect")]),
                            ("payload", .obj [])]))) =
      .panicked "reconnect_url as_str unwrap" :=
  ⟨rfl, rfl, rfl⟩

/-- C7 amended: only a frame whose `metadata.message_type` is missing or not
a string, or whose type is unrecognized, is logged, skipped and the loop
continues; malformed fields deeper in a recognized frame are not skipped —
unparseable JSON and a `notification` without a string `broadcaster_user_id`
panic, terminating the receive loop. -/
theorem C7_amended_skip_only_missing_type :
    (∀ m : Json, ((m.get "metadata").get "message_type").asStr = none →
      handle_ws_message true (.text (some m)) = .act .stay noEffects) ∧
    (∀ (m : Json) (mt : String),
      ((m.get "metadata").get "message_type").asStr = some mt →
      mt ≠ "session_keepalive" → mt ≠ "notification" → mt ≠ "session_reconnect" →
      handle_ws_message true (.text (some m)) = .act .stay noEffects) ∧
    (∀ m : Json,
      ((m.get "metadata").get "message_type").asStr = some "notification" →
      (((m.get "payload").get "event").get "broadcaster_user_id").asStr = none →
      handle_ws_message true (.text (some m)) =
        .panicked "Stream offline notification message does not contain broadcaster_user_id!") ∧
    (handle_ws_message true (.text none) = .panicked "serde_json::from_str unwrap") := by
  refine ⟨?_, ?_, ?_, rfl⟩
  · intro m hm
    simp [handle_ws_message, hm]
  · intro m mt hm h1 h2 h3
    simp [handle_ws_message, hm, h1, h2, h3]
  · intro m hm hu
    simp [handle_ws_message, hm, hu]

/-- C7 amended witness: a frame with no metadata at all is skipped; a frame
with an unrecognized type is skipped; the malformed notification panics. -/
theorem C7_amended_skip_only_missing_type_witness :
    handle_ws_message true (.text (some (.obj []))) = .act .stay noEffects ∧
    handle_ws_message true
        (.text (some (.obj [("metadata", .obj [("message_type", .str "weird")])]))) =
      .act .stay noEffects ∧
    handle_ws_message true
        (.text (some (.obj [("metadata", .obj [("message_type", .str "notification")]),
                            ("payload", .obj [])]))) =
      .panicked "Stream offline notification message does not contain broadcaster_user_id!" := by
  have T := C7_amended_skip_only_missing_type
  exact ⟨T.1 (.obj []) rfl,
    T.2.1 _ "weird" rfl (by decide) (by decide) (by decide),
    T.2.2.1 _ rfl rfl⟩

/-- C8: each subject in the list gets its own registration POST; the whole
batch succeeds whenever no send error occurs, reporting per subject exactly
the success of that subjectʼs own HTTP status — one subjectʼs non-success
status neither stops nor affects the others; and the receive loop forwards a
notification for any broadcaster id independently of registration results. -/
theorem C8_registration_independent (outcome : Nat → RegOutcome) (ids : List Nat)
    (hok : ∀ id ∈ ids, outcome id ≠ .netError) :
    registerAll outcome ids = .ok (ids.map fun id => (id, regSuccess (outcome id))) ∧
    (∀ (uidStr : String) (uid : Nat), parseU64 uidStr = some uid →
      handle_ws_message true (.text (some (mkNotification uidStr))) =
        .act .stay ⟨none, false, some uid⟩) := by
  constructor
  · induction ids with
    | nil => rfl
    | cons id rest ih =>
      have h1 : outcome id ≠ .netError := hok id (by simp)
      cases ho : outcome id with
      | netError => exact absurd ho h1
      | status code =>
        have ih' := ih (fun i hi => hok i (by simp [hi]))
        simp [registerAll, ho, ih', regSuccess]
  · intro uidStr uid hp
    simp [handle_ws_message, mkNotification, Json.get, Json.asStr, hp]

/-- C8 witness: the spec scenario — subjects 42 and 99, subject 42 gets HTTP
500, subject 99 gets HTTP 200: the report is 42 failed, 99 succeeded, and a
later notification for 99 is still forwarded. -/
theorem C8_registration_independent_witness :
    registerAll (fun id => if id = 42 then .status 500 else .status 200) [42, 99] =
      .ok [(42, false), (99, true)] ∧
    handle_ws_message true (.text (some (mkNotification "99"))) =
      .act .stay ⟨none, false, some 99⟩ := by
  have T := C8_registration_independent
    (fun id => if id = 42 then .status 500 else .status 200) [42, 99]
    (by intro id hid; fin_cases hid <;> decide)
  exact ⟨T.1, T.2 "99" 99 rfl⟩

/-- C9 counterexample: over the trace "welcome of generation 1, reconnect,
welcome of generation 2", the cell still holds generation 1ʼs session id:
generation 2 received a frame but no assignment happened in it (`setEvents`
is `[1]`, not `[1, 2]`), so "session_id is assigned exactly once per
connection generation by the first inbound message of that generation" is
false for generation 2. -/
theorem C9_counterexample :
    (sessRun sessInit [.recvText (mkWelcome "sess-1"), .newGeneration,
        .recvText (mkWelcome "sess-2")]).sessionId = some (.str "sess-1") ∧
    (sessRun sessInit [.recvText (mkWelcome "sess-1"), .newGeneration,
        .recvText (mkWelcome "sess-2")]).setEvents = [1] ∧
    (sessRun sessInit [.recvText (mkWelcome "sess-1"), .newGeneration,
        .recvText (mkWelcome "sess-2")]).msgs = [1, 2] ∧
    Json.str "sess-1" ≠ Json.str "sess-2" := by
  refine ⟨rfl, rfl, rfl, ?_⟩
  intro h
  injection h with h'
  exact absurd h' (by decide)

/-- C9 amended: the write-once cell is created once per `listen_for_offline`
call and reused, never reset, across connection generations: over any
lifetime trace at most one assignment ever happens (not one per generation),
performed by the receive loop at the first text frame while the cell is
empty; once set, the value is immutable for the rest of the lifetime,
reconnects included. -/
theorem C9_amended_session_id_write_once_per_call (events : List SessEvent) :
    ((sessRun sessInit events).setEvents.length ≤ 1) ∧
    (∀ s : SessState, s.sessionId ≠ none →
      (sessRun s events).sessionId = s.sessionId ∧
      (sessRun s events).setEvents = s.setEvents) := by
  have frozen : ∀ (evs : List SessEvent) (s : SessState), s.sessionId ≠ none →
      (sessRun s evs).sessionId = s.sessionId ∧
      (sessRun s evs).setEvents = s.setEvents := by
    intro evs
    induction evs with
    | nil => intro s _; exact ⟨rfl, rfl⟩
    | cons e rest ih =>
      intro s hs
      cases e with
      | recvText m =>
        cases hsid : s.sessionId with
        | none => exact absurd hsid hs
        | some x =>
          have hstep : sessStep s (.recvText m) =
              { s with msgs := s.msgs ++ [s.generation] } := by
            unfold sessStep
            rw [hsid]
          rw [sessRun, hstep]
          have hres := ih { s with msgs := s.msgs ++ [s.generation] } (by simp [hsid])
          simpa [hsid] using hres
      | newGeneration =>
        rw [sessRun]
        exact ih _ (by simpa using hs)
  refine ⟨?_, frozen events⟩
  have bound : ∀ (evs : List SessEvent) (s : SessState), s.sessionId = none →
      (sessRun s evs).setEvents.length ≤ s.setEvents.length + 1 := by
    intro evs
    induction evs with
    | nil => intro s _; simp [sessRun]
    | cons e rest ih =>
      intro s hs
      cases e with
      | recvText m =>
        have hstep : sessStep s (.recvText m) =
            { s with sessionId := some (((m.get "payload").get "session").get "id"),
                     setEvents := s.setEvents ++ [s.generation],
                     msgs := s.msgs ++ [s.generation] } := by
          unfold sessStep
          rw [hs]
        rw [sessRun, hstep]
        have hfr := frozen rest
          { s with sessionId := some (((m.get "payload").get "session").get "id"),
                   setEvents := s.setEvents ++ [s.generation],
                   msgs := s.msgs ++ [s.generation] } (by simp)
        rw [hfr.2]
        simp
      | newGeneration =>
        rw [sessRun]
        exact ih _ (by simpa using hs)
  have h := bound events sessInit rfl
  simpa using h

/-- C9 amended witness: on the counterexample trace only one assignment ever
happens, and a cell already holding an id survives a further frame. -/
theorem C9_amended_session_id_write_once_per_call_witness :
    ((sessRun sessInit [.recvText (mkWelcome "a"), .newGeneration,
        .recvText (mkWelcome "b")]).setEvents.length ≤ 1) ∧
    (sessRun ⟨some (.str "x"), 1, [1], []⟩
        [.recvText (mkWelcome "b")]).sessionId = some (.str "x") := by
  have T1 := C9_amended_session_id_write_once_per_call
    [.recvText (mkWelcome "a"), .newGeneration, .recvText (mkWelcome "b")]
  have T2 := C9_amended_session_id_write_once_per_call [.recvText (mkWelcome "b")]
  exact ⟨T1.1, (T2.2 ⟨some (.str "x"), 1, [1], []⟩ (by simp)).1⟩

/-- The retry loop returns a prefix of the string cut at a char boundary not
past `attempted - 3`. -/
theorem truncLoop_spec (s : List Nat) (attempted : Nat) :
    ∃ j, truncLoop s attempted = s.take j ∧ isCharBoundary s j = true ∧
      j ≤ attempted - 3 := by
  induction attempted using Nat.strong_induction_on with
  | _ attempted ih =>
    by_cases h : (strGetTo s (attempted - 3)).isSome
    · have hb : isCharBoundary s (attempted - 3) = true := by
        by_contra hb
        simp [strGetTo, hb] at h
      refine ⟨attempted - 3, ?_, hb, le_refl _⟩
      rw [truncLoop, dif_pos h]
      simp [strGetTo, hb]
    · have hb : ¬ isCharBoundary s (attempted - 3) = true := by
        intro hbt
        simp [strGetTo, hbt] at h
      have h0 : isCharBoundary s 0 = true := rfl
      have hne : attempted - 3 ≠ 0 := by
        intro he
        rw [he] at hb
        exact hb h0
      obtain ⟨j, h1, h2, h3⟩ := ih (attempted - 1) (by omega)
      rw [truncLoop, dif_neg h]
      exact ⟨j, h1, h2, by omega⟩

/-- C10: for `max_length ≥ 3`, a string of byte length at most `max_length`
is returned unchanged; a longer one becomes a prefix of the original, cut at
a valid char boundary (Rust `is_char_boundary`), followed by the three bytes
of `"..."`, with total byte length at most `max_length`. -/
theorem C10_truncate_string_spec (s : List Nat) (max_length : Nat)
    (h3 : 3 ≤ max_length) :
    (s.length ≤ max_length → truncate_string s max_length = s) ∧
    (max_length < s.length →
      ∃ j, isCharBoundary s j = true ∧
        truncate_string s max_length = s.take j ++ [46, 46, 46] ∧
        j + 3 ≤ max_length ∧
        (truncate_string s max_length).length ≤ max_length) := by
  constructor
  · intro hle
    unfold truncate_string
    rw [if_pos hle]
  · intro hgt
    obtain ⟨j, h1, h2, hj⟩ := truncLoop_spec s max_length
    have hne : ¬ s.length ≤ max_length := by omega
    have heq : truncate_string s max_length = s.take j ++ [46, 46, 46] := by
      unfold truncate_string
      rw [if_neg hne, h1]
    refine ⟨j, h2, heq, by omega, ?_⟩
    rw [heq]
    simp only [List.length_append, List.length_take, List.length_cons,
      List.length_nil]
    omega

/-- C10 witness: at `max_length = 3`, a one-byte string fits and is returned
unchanged, and a four-byte ASCII string is truncated to exactly `"..."`. -/
theorem C10_truncate_string_spec_witness :
    3 ≤ 3 ∧ truncate_string [97] 3 = [97] :=
  ⟨by decide, (C10_truncate_string_spec [97] 3 (by decide)).1 (by decide)⟩

end VodSquirrel
